import Mathlib

/-!
Verification of the conversation-session core of `src/backend/main.py`
(a chat-session backend persisting multi-turn conversations).

The Python source is shallowly embedded: the SQLite store becomes an explicit
`DB` value threaded through each operation, the Ollama model client becomes a
`String → Option String` parameter (`none` models a provider failure), and the
`json.dumps` / `json.loads` calls on conversation histories become the
executable `serializeLog` / `deserializeLog` pair defined below.
-/

namespace ChatClone

/-- One message of a conversation, `{role, content}` as stored in the
`conversation_history` JSON (the dicts built at `main.py` lines 238/255). -/
structure Turn where
  role : String
  content : String
  deriving DecidableEq, Repr

/-! ### JSON text form of a message log

`json.dumps` of a `[{"role": ..., "content": ...}]` list, with the default
separators `", "` / `": "` and default `ensure_ascii=True` escaping
(backslash, quote, everything outside `0x20..0x7e`; short escapes for the
usual control characters; `\uXXXX` otherwise, surrogate pairs above
`0xFFFF`), and the matching parser for `json.loads` on that canonical form. -/

/-- Lowercase hex digit, as produced by Python's `{0:04x}` format. -/
def hexDigit (n : Nat) : Char :=
  if n < 10 then Char.ofNat (48 + n) else Char.ofNat (87 + n)

/-- Value of one hex digit (upper or lower case accepted, as `json.loads`). -/
def hexVal (c : Char) : Option Nat :=
  if 48 ≤ c.toNat ∧ c.toNat ≤ 57 then some (c.toNat - 48)
  else if 97 ≤ c.toNat ∧ c.toNat ≤ 102 then some (c.toNat - 87)
  else if 65 ≤ c.toNat ∧ c.toNat ≤ 70 then some (c.toNat - 55)
  else none

/-- `\uXXXX` escape for a code unit `n < 0x10000`. -/
def uEscape (n : Nat) : List Char :=
  ['\\', 'u', hexDigit (n / 4096 % 16), hexDigit (n / 256 % 16),
   hexDigit (n / 16 % 16), hexDigit (n % 16)]

/-- The characters `json.dumps` emits for one character of a string
(CPython `py_encode_basestring_ascii`). -/
def jsonEscapeChar (c : Char) : List Char :=
  if c = '"' then ['\\', '"']
  else if c = '\\' then ['\\', '\\']
  else if 0x20 ≤ c.toNat ∧ c.toNat ≤ 0x7e then [c]
  else if c = '\x08' then ['\\', 'b']
  else if c = '\t' then ['\\', 't']
  else if c = '\n' then ['\\', 'n']
  else if c = '\x0c' then ['\\', 'f']
  else if c = '\r' then ['\\', 'r']
  else if c.toNat < 0x10000 then uEscape c.toNat
  else uEscape (0xD800 + (c.toNat - 0x10000) / 0x400) ++
       uEscape (0xDC00 + (c.toNat - 0x10000) % 0x400)

/-- Escaped body of a JSON string (no surrounding quotes). -/
def escList : List Char → List Char
  | [] => []
  | c :: cs => jsonEscapeChar c ++ escList cs

/-- `json.dumps` of one `{"role": ..., "content": ...}` dict (insertion key
order, `", "` and `": "` separators, as at `main.py` lines 238/255/259/270). -/
def serializeTurnChars (t : Turn) : List Char :=
  '{' :: '"' :: 'r' :: 'o' :: 'l' :: 'e' :: '"' :: ':' :: ' ' :: '"' ::
    (escList t.role.data ++
      ('"' :: ',' :: ' ' :: '"' :: 'c' :: 'o' :: 'n' :: 't' :: 'e' :: 'n' :: 't' ::
       '"' :: ':' :: ' ' :: '"' ::
        (escList t.content.data ++ ['"', '}'])))

/-- The `", "`-separated turn objects of a log (no surrounding brackets). -/
def turnsChars : List Turn → List Char
  | [] => []
  | [t] => serializeTurnChars t
  | t :: ts => serializeTurnChars t ++ ',' :: ' ' :: turnsChars ts

def serializeLogChars (log : List Turn) : List Char :=
  '[' :: (turnsChars log ++ [']'])

/-- `json.dumps(conversation)`: the persisted textual form of a message log. -/
def serializeLog (log : List Turn) : String :=
  ⟨serializeLogChars log⟩

/-- Prepend a character to the string under construction in a parse result. -/
def consFst (c : Char) : Option (List Char × List Char) → Option (List Char × List Char)
  | none => none
  | some (s, r) => some (c :: s, r)

/-- Four hex digits, as a code unit plus the unconsumed remainder. -/
def parseU4 (l : List Char) : Option (Nat × List Char) :=
  match l with
  | h1 :: h2 :: h3 :: h4 :: r =>
    match hexVal h1, hexVal h2, hexVal h3, hexVal h4 with
    | some a, some b, some c, some d => some (4096 * a + 256 * b + 16 * c + d, r)
    | _, _, _, _ => none
  | _ => none

/-- One escape sequence after its leading backslash: the decoded character
plus the unconsumed remainder.  Handles the standard short escapes, `\uXXXX`,
and UTF-16 surrogate pairs, as `json.loads` does (lone surrogates are
rejected; the serializer never emits them). -/
def parseEscape (l : List Char) : Option (Char × List Char) :=
  match l with
  | [] => none
  | e :: r =>
    if e = '"' then some ('"', r)
    else if e = '\\' then some ('\\', r)
    else if e = '/' then some ('/', r)
    else if e = 'b' then some ('\x08', r)
    else if e = 'f' then some ('\x0c', r)
    else if e = 'n' then some ('\n', r)
    else if e = 'r' then some ('\r', r)
    else if e = 't' then some ('\t', r)
    else if e = 'u' then
      match parseU4 r with
      | none => none
      | some (n, r2) =>
        if 0xD800 ≤ n ∧ n < 0xDC00 then
          match r2 with
          | b2 :: u2 :: r3 =>
            if b2 = '\\' ∧ u2 = 'u' then
              match parseU4 r3 with
              | none => none
              | some (m, r4) =>
                if 0xDC00 ≤ m ∧ m < 0xE000 then
                  some (Char.ofNat (0x10000 + (n - 0xD800) * 0x400 + (m - 0xDC00)), r4)
                else none
            else none
          | _ => none
        else if n < 0xD800 ∨ 0xE000 ≤ n then some (Char.ofNat n, r2)
        else none
    else none

/-- Body of a JSON string after its opening quote: decoded characters up to
the closing quote, plus the unconsumed remainder.  Fuel-bounded recursion;
callers pass the input length, ample since every decoded character consumes
at least one input character. -/
def parseStringBody (fuel : Nat) (l : List Char) : Option (List Char × List Char) :=
  match fuel, l with
  | 0, _ => none
  | _ + 1, [] => none
  | fuel + 1, c :: rest =>
    if c = '"' then some ([], rest)
    else if ¬ c = '\\' then consFst c (parseStringBody fuel rest)
    else match parseEscape rest with
      | none => none
      | some (d, r) => consFst d (parseStringBody fuel r)

/-- Expect a literal character at the head of the input. -/
def expectChar (c : Char) (l : List Char) : Option (List Char) :=
  match l with
  | [] => none
  | x :: r => if x = c then some r else none

/-- Expect a literal character sequence as a prefix of the input. -/
def expectChars : List Char → List Char → Option (List Char)
  | [], l => some l
  | c :: cs, l =>
    match expectChar c l with
    | none => none
    | some r => expectChars cs r

/-- One `{"role": ..., "content": ...}` object, returning the turn and the
unconsumed remainder. -/
def parseTurn (fuel : Nat) (l : List Char) : Option (Turn × List Char) :=
  match expectChars ['{', '"', 'r', 'o', 'l', 'e', '"', ':', ' ', '"'] l with
  | none => none
  | some r =>
    match parseStringBody fuel r with
    | none => none
    | some (role, r2) =>
      match expectChars [',', ' ', '"', 'c', 'o', 'n', 't', 'e', 'n', 't', '"', ':', ' ', '"'] r2 with
      | none => none
      | some r3 =>
        match parseStringBody fuel r3 with
        | none => none
        | some (content, r4) =>
          match expectChar '}' r4 with
          | none => none
          | some r5 => some (⟨⟨role⟩, ⟨content⟩⟩, r5)

/-- A `", "`-separated sequence of turn objects (fuel-bounded recursion). -/
def parseTurns : Nat → Nat → List Char → Option (List Turn × List Char)
  | 0, _, _ => none
  | fuel + 1, sfuel, input =>
    match parseTurn sfuel input with
    | none => none
    | some (t, rest) =>
      match rest with
      | a :: b :: r =>
        if a = ',' ∧ b = ' ' then
          match parseTurns fuel sfuel r with
          | some (ts, r2) => some (t :: ts, r2)
          | none => none
        else some ([t], rest)
      | _ => some ([t], rest)

def deserializeLogChars (l : List Char) : Option (List Turn) :=
  match l with
  | [] => none
  | b :: rest =>
    if b = '[' then
      if rest = [']'] then some []
      else
        match parseTurns l.length l.length rest with
        | some (ts, r) => if r = [']'] then some ts else none
        | none => none
    else none

/-- `json.loads` of a persisted conversation history, restricted to the
log shape `[{"role": ..., "content": ...}, ...]` actually stored by the app
(anything else is malformed and yields `none`). -/
def deserializeLog (s : String) : Option (List Turn) :=
  deserializeLogChars s.data

/-! ### Title derivation (`create_chat_title`, `main.py` lines 116-118) -/

/-- Python `question.split(' ')`: split on every single space character,
keeping empty pieces from adjacent / leading / trailing spaces
(`"".split(' ') == ['']`). -/
def splitSpaceChars : List Char → List (List Char)
  | [] => [[]]
  | c :: cs =>
    if c = ' ' then [] :: splitSpaceChars cs
    else
      match splitSpaceChars cs with
      | [] => [[c]]
      | w :: ws => (c :: w) :: ws

/-- Python `' '.join(words)`. -/
def joinWords : List (List Char) → List Char
  | [] => []
  | [w] => w
  | w :: ws => w ++ ' ' :: joinWords ws

/-- `create_chat_title`: `words = question.split(' ')`;
`' '.join(words[:3]) + ('...' if len(words) > 3 else '')`. -/
def create_chat_title (question : String) : String :=
  let words := splitSpaceChars question.data
  ⟨joinWords (words.take 3)⟩ ++ (if words.length > 3 then "..." else "")

/-! ### Context assembly (`main.py` lines 241-251)

The code replays the conversation into a langchain `ChatMessageHistory`:
`add_user_message` stores a message whose `type` is `"human"`,
`add_ai_message` one whose `type` is `"ai"` (langchain-core message types);
any other role is skipped by the `if`/`elif`.  The history text renders each
stored message as `f"{msg.type.capitalize()}: {msg.content}"` joined by
newline, and is embedded into the fixed `PromptTemplate`. -/

/-- A langchain message as far as the prompt rendering observes it. -/
structure LCMessage where
  type : String
  content : String
  deriving DecidableEq, Repr

/-- The `llm_chat_history.messages` built by the loop at lines 242-246. -/
def lcHistory : List Turn → List LCMessage
  | [] => []
  | t :: ts =>
    if t.role = "user" then ⟨"human", t.content⟩ :: lcHistory ts
    else if t.role = "assistant" then ⟨"ai", t.content⟩ :: lcHistory ts
    else lcHistory ts

/-- Python `str.capitalize()`: first character uppercased, the rest
lowercased. -/
def pyCapitalize (s : String) : String :=
  match s.data with
  | [] => ""
  | c :: cs => ⟨c.toUpper :: cs.map Char.toLower⟩

/-- `chat_history_text` (line 249): each stored message rendered as
`f"{msg.type.capitalize()}: {msg.content}"`, joined by newline. -/
def renderHistory (conversation : List Turn) : String :=
  String.intercalate "\n"
    ((lcHistory conversation).map fun m => pyCapitalize m.type ++ ": " ++ m.content)

/-- `prompt.format(chat_history=..., question=...)` with the template
`"Previous conversation: {chat_history}\nUser: {question}\nAI:"`
(template string at lines 72-75, formatted at line 251). -/
def assemblePrompt (conversation : List Turn) (question : String) : String :=
  "Previous conversation: " ++ renderHistory conversation ++
    "\nUser: " ++ question ++ "\nAI:"

/-! ### Data model of the store -/

/-- A row of the `users` table (only the fields the chat endpoints read). -/
structure UserRec where
  id : Nat
  username : String
  deriving DecidableEq, Repr

/-- A row of the `chats` table. -/
structure ChatRecord where
  id : Nat
  user_id : Nat
  first_question : Option String
  conversation_history : String
  deriving DecidableEq, Repr

/-- The database state: both tables plus the id the store will assign to the
next inserted chat (SQLite integer primary keys start at 1). -/
structure DB where
  users : List UserRec
  chats : List ChatRecord
  nextChatId : Nat
  deriving DecidableEq, Repr

/-- The `ChatResponse` schema returned by the chat endpoints. -/
structure ChatResponse where
  id : Nat
  title : String
  conversation_history : String
  deriving DecidableEq, Repr

/-- The error taxonomy of the endpoints (each raised as an `HTTPException`
in the source; `ModelInvocationError` / `MalformedLogError` are the

provider / corrupt-log failures that propagate out of the handler). -/
inductive ApiError where
  | AccountNotFoundError
  | SessionNotFoundError
  | ModelInvocationError
  | MalformedLogError
  deriving DecidableEq, Repr

/-- Python truthiness test `not x` on an `Optional[str]` column:
true for `None` and for the empty string. -/
def pyFalsy : Option String → Bool
  | none => true
  | some s => s = ""

/-- Python `x or default` on an `Optional[str]`: the default replaces both
`None` and the empty string. -/
def pyOr (x : Option String) (default : String) : String :=
  match x with
  | none => default
  | some s => if s = "" then default else s

/-- `get_user` (line 104): first user whose username matches. -/
def get_user (db : DB) (username : String) : Option UserRec :=
  db.users.find? fun u => u.username == username

/-! ### The `/chat` endpoint (`main.py` lines 216-281) -/

/-- Session resolution inside `chat` (lines 227-235): Python `if chat_id:`
is true only for a present, nonzero id; then the chat is looked up by the
`(chat_id, user_id)` pair and its stored history is parsed.  Returns the
found record (if any) and the loaded conversation. -/
def resolveSession (db : DB) (userId : Nat) (chat_id : Option Nat) :
    Except ApiError (Option ChatRecord × List Turn) :=
  match chat_id with
  | some cid =>
    if cid ≠ 0 then
      match db.chats.find? (fun c => c.id == cid && c.user_id == userId) with
      | none => .error .SessionNotFoundError
      | some c =>
        match deserializeLog c.conversation_history with
        | none => .error .MalformedLogError
        | some conv => .ok (some c, conv)
    else .ok (none, [])
  | none => .ok (none, [])

/-- Replace the row with the given id (SQLAlchemy update of a loaded row). -/
def updateRow (chats : List ChatRecord) (id : Nat) (c : ChatRecord) : List ChatRecord :=
  chats.map fun x => if x.id = id then c else x

/-- The `/chat` handler.  `llm` abstracts `llm.invoke` (`none` = provider
failure, which aborts the request before any store write).  Returns the
resulting database state together with the outcome. -/
def chat (llm : String → Option String) (db : DB) (username : String)
    (chat_id : Option Nat) (question : String) :
    DB × Except ApiError ChatResponse :=
  match get_user db username with
  | none => (db, .error .AccountNotFoundError)
  | some user =>
    match resolveSession db user.id chat_id with
    | .error e => (db, .error e)
    | .ok (db_chat, conversation0) =>
      let conversation1 := conversation0 ++ [⟨"user", question⟩]
      match llm (assemblePrompt conversation1 question) with
      | none => (db, .error .ModelInvocationError)
      | some llm_response =>
        let conversation2 := conversation1 ++ [⟨"assistant", llm_response⟩]
        match db_chat with
        | some c =>
          let c2 : ChatRecord :=
            { c with
              conversation_history := serializeLog conversation2
              first_question :=
                if pyFalsy c.first_question then some question else c.first_question }
          let db2 : DB := { db with chats := updateRow db.chats c.id c2 }
          (db2, .ok ⟨c2.id, create_chat_title (pyOr c2.first_question "New Chat"),
                     c2.conversation_history⟩)
        | none =>
          let newChat : ChatRecord :=
            ⟨db.nextChatId, user.id, some question, serializeLog conversation2⟩
          let db2 : DB :=
            { db with chats := db.chats ++ [newChat], nextChatId := db.nextChatId + 1 }
          (db2, .ok ⟨newChat.id, create_chat_title (pyOr newChat.first_question "New Chat"),
                     newChat.conversation_history⟩)

/-! ### The read / delete endpoints (`main.py` lines 298-325) -/

/-- `GET /chat/\x7bchat_id\x7d` (lines 298-307): lookup by id alone — the
handler takes no username and applies no ownership filter. -/
def get_chat (db : DB) (chat_id : Nat) : Except ApiError ChatResponse :=
  match db.chats.find? (fun c => c.id == chat_id) with
  | none => .error .SessionNotFoundError
  | some c =>
    .ok ⟨c.id, create_chat_title (pyOr c.first_question "Untitled Chat"),
         c.conversation_history⟩

/-- `DELETE /chat/\x7bchat_id\x7d` (lines 309-316): lookup by id alone, 404
when absent, otherwise the row is deleted. -/
def delete_chat (db : DB) (chat_id : Nat) : DB × Except ApiError Unit :=
  match db.chats.find? (fun c => c.id == chat_id) with
  | none => (db, .error .SessionNotFoundError)
  | some _ =>
    ({ db with chats := db.chats.eraseP (fun c => c.id == chat_id) }, .ok ())

/-- `DELETE /chats` (lines 318-325): bulk delete of the user's chats,
returning the number of deleted rows (reported in the response message). -/
def delete_all_chats (db : DB) (username : String) : DB × Except ApiError Nat :=
  match get_user db username with
  | none => (db, .error .AccountNotFoundError)
  | some user =>
    let deleted := (db.chats.filter fun c => c.user_id == user.id).length
    ({ db with chats := db.chats.filter fun c => ! (c.user_id == user.id) },
     .ok deleted)

/-! ### Spec-side definitions used to compare against the code

These definitions follow the wording of the specification (or of an amended
claim) and are only ever compared with the definitions above, which are
translated from the source. -/

/-- Enough string-body fuel for every turn of the log. -/
def turnsFuel (sfuel : Nat) (log : List Turn) : Prop :=
  ∀ t ∈ log, t.role.data.length < sfuel ∧ t.content.data.length < sfuel

/-- Whitespace split (any whitespace character), keeping empty pieces;
composed with a non-empty filter below this is Python `str.split()`,
the "split on whitespace into words" of the spec. -/
def splitWsChars : List Char → List (List Char)
  | [] => [[]]
  | c :: cs =>
    if c.isWhitespace then [] :: splitWsChars cs
    else
      match splitWsChars cs with
      | [] => [[c]]
      | w :: ws => (c :: w) :: ws

/-- The title rule as the spec words it: split the source text on whitespace
into words, take at most the first 3, join with single spaces, append the
ellipsis marker iff more than 3 words existed. -/
def specDeriveTitle (sourceText : String) : String :=
  let words := (splitWsChars sourceText.data).filter (fun w => !w.isEmpty)
  ⟨joinWords (words.take 3)⟩ ++ (if words.length > 3 then "..." else "")

/-- The history rendering rule with the labels the code actually produces:
each user turn as `"Human: ..."`, each assistant turn as `"Ai: ..."`, any
other role skipped, joined by newline. -/
def specRenderHistory (log : List Turn) : String :=
  String.intercalate "\n" (log.filterMap fun t =>
    if t.role = "user" then some ("Human: " ++ t.content)
    else if t.role = "assistant" then some ("Ai: " ++ t.content)
    else none)

/-- Every persisted chat row has a parseable, non-empty conversation log. -/
def nonEmptyLogs (db : DB) : Prop :=
  ∀ c ∈ db.chats, ∃ l, deserializeLog c.conversation_history = some l ∧ l ≠ []

/-- Concrete example stores used by witnesses and counterexamples. -/
def store0 : DB := ⟨[⟨1, "alice"⟩], [], 1⟩

def storeCross : DB := ⟨[⟨1, "alice"⟩, ⟨2, "bob"⟩], [⟨7, 2, some "Hi", "[]"⟩], 8⟩

def storeEmptyTitle : DB := ⟨[⟨1, "alice"⟩], [⟨1, 1, some "", "[]"⟩], 2⟩

def storeOne : DB :=
  ⟨[⟨1, "alice"⟩],
   [⟨1, 1, some "Hi", serializeLog [⟨"user", "Hi"⟩, ⟨"assistant", "Hello!"⟩]⟩], 2⟩

/-! ### Round-trip of the log codec -/

theorem hexVal_hexDigit : ∀ n < 16, hexVal (hexDigit n) = some n := by decide

theorem char_valid_nat (c : Char) :
    c.toNat < 0xd800 ∨ (0xe000 ≤ c.toNat ∧ c.toNat < 0x110000) := c.valid

/-- Parsing four serialized hex digits of a value below `0x10000` yields it
back. -/
theorem parseU4_uEscape (n : Nat) (h : n < 0x10000) (rest : List Char) :
    parseU4 ((uEscape n).drop 2 ++ rest) = some (n, rest) := by
  have e1 := hexVal_hexDigit (n / 4096 % 16) (Nat.mod_lt _ (by omega))
  have e2 := hexVal_hexDigit (n / 256 % 16) (Nat.mod_lt _ (by omega))
  have e3 := hexVal_hexDigit (n / 16 % 16) (Nat.mod_lt _ (by omega))
  have e4 := hexVal_hexDigit (n % 16) (Nat.mod_lt _ (by omega))
  have hn : 4096 * (n / 4096 % 16) + 256 * (n / 256 % 16) +
      16 * (n / 16 % 16) + n % 16 = n := by omega
  simp [uEscape, parseU4, e1, e2, e3, e4, hn]

/-- Parsing a serialized surrogate pair yields the recombined character. -/
theorem parseStringBody_pair (fuel : Nat) (hi lo : Nat) (rest : List Char)
    (h1 : 0xD800 ≤ hi) (h2 : hi < 0xDC00) (h3 : 0xDC00 ≤ lo) (h4 : lo < 0xE000) :
    parseStringBody (fuel + 1) (uEscape hi ++ (uEscape lo ++ rest)) =
      consFst (Char.ofNat (0x10000 + (hi - 0xD800) * 0x400 + (lo - 0xDC00)))
        (parseStringBody fuel rest) := by
  have hu1 := parseU4_uEscape hi (by omega) (uEscape lo ++ rest)
  have hu2 := parseU4_uEscape lo (by omega) rest
  have hsr1 : 0xD800 ≤ hi ∧ hi < 0xDC00 := ⟨h1, h2⟩
  have hsr2 : 0xDC00 ≤ lo ∧ lo < 0xE000 := ⟨h3, h4⟩
  simp only [uEscape, List.drop_succ_cons, List.drop_zero,
    List.cons_append, List.nil_append] at hu1 hu2
  simp [uEscape, parseStringBody, parseEscape, hu1, hu2, hsr1, hsr2]

/-- Parsing the characters the serializer emits for one character yields
exactly that character. -/
theorem parseStringBody_escape (c : Char) (fuel : Nat) (rest : List Char) :
    parseStringBody (fuel + 1) (jsonEscapeChar c ++ rest) =
      consFst c (parseStringBody fuel rest) := by
  have hv := char_valid_nat c
  by_cases h1 : c = '"'
  · subst h1; simp [jsonEscapeChar, parseStringBody, parseEscape]
  by_cases h2 : c = '\\'
  · subst h2; simp [jsonEscapeChar, parseStringBody, parseEscape]
  by_cases h3 : 0x20 ≤ c.toNat ∧ c.toNat ≤ 0x7e
  · simp [jsonEscapeChar, h1, h2, h3, parseStringBody]
  by_cases h4 : c = '\x08'
  · subst h4; simp [jsonEscapeChar, parseStringBody, parseEscape]
  by_cases h5 : c = '\t'
  · subst h5; simp [jsonEscapeChar, parseStringBody, parseEscape]
  by_cases h6 : c = '\n'
  · subst h6; simp [jsonEscapeChar, parseStringBody, parseEscape]
  by_cases h7 : c = '\x0c'
  · subst h7; simp [jsonEscapeChar, parseStringBody, parseEscape]
  by_cases h8 : c = '\r'
  · subst h8; simp [jsonEscapeChar, parseStringBody, parseEscape]
  by_cases h9 : c.toNat < 0x10000
  · have hu := parseU4_uEscape c.toNat h9 rest
    have hs1 : ¬ (0xD800 ≤ c.toNat ∧ c.toNat < 0xDC00) := by omega
    have hs2 : c.toNat < 0xD800 ∨ 0xE000 ≤ c.toNat := by omega
    simp only [uEscape, List.drop_succ_cons, List.drop_zero,
      List.cons_append, List.nil_append] at hu
    simp [jsonEscapeChar, h1, h2, h3, h4, h5, h6, h7, h8, h9, uEscape,
      parseStringBody, parseEscape, hu, hs1, hs2, Char.ofNat_toNat]
  · have hmod : (c.toNat - 0x10000) % 0x400 < 0x400 :=
      Nat.mod_lt (c.toNat - 0x10000) (y := 0x400) (by omega)
    have hpair := parseStringBody_pair fuel (0xD800 + (c.toNat - 0x10000) / 0x400)
      (0xDC00 + (c.toNat - 0x10000) % 0x400) rest
      (by omega) (by omega) (by omega) (by omega)
    have hch : (0x10000 : Nat) + (0xD800 + (c.toNat - 0x10000) / 0x400 - 0xD800) * 0x400 +
        (0xDC00 + (c.toNat - 0x10000) % 0x400 - 0xDC00) = c.toNat := by
      have := Nat.div_add_mod (c.toNat - 0x10000) 0x400
      omega
    rw [hch, Char.ofNat_toNat] at hpair
    have hform : jsonEscapeChar c ++ rest =
        uEscape (0xD800 + (c.toNat - 0x10000) / 0x400) ++
          (uEscape (0xDC00 + (c.toNat - 0x10000) % 0x400) ++ rest) := by
      simp [jsonEscapeChar, h1, h2, h3, h4, h5, h6, h7, h8, h9, List.append_assoc]
    rw [hform, hpair]

/-- The parser consumes exactly the serialized body of a string and returns
the original characters. -/
theorem parseStringBody_escList :
    ∀ (l : List Char) (fuel : Nat) (rest : List Char), l.length < fuel →
      parseStringBody fuel (escList l ++ '"' :: rest) = some (l, rest) := by
  intro l
  induction l with
  | nil =>
    intro fuel rest h
    cases fuel with
    | zero => exact absurd h (by omega)
    | succ f => simp [escList, parseStringBody]
  | cons c cs ih =>
    intro fuel rest h
    cases fuel with
    | zero => exact absurd h (by omega)
    | succ f =>
      have hshape : escList (c :: cs) ++ '"' :: rest =
          jsonEscapeChar c ++ (escList cs ++ '"' :: rest) := by
        simp [escList, List.append_assoc]
      rw [hshape, parseStringBody_escape,
        ih f rest (by simpa using Nat.lt_of_succ_lt_succ h)]
      rfl

/-- The turn parser consumes exactly one serialized turn. -/
theorem parseTurn_serialize (t : Turn) (fuel : Nat) (rest : List Char)
    (h1 : t.role.data.length < fuel) (h2 : t.content.data.length < fuel) :
    parseTurn fuel (serializeTurnChars t ++ rest) = some (t, rest) := by
  obtain ⟨⟨roleData⟩, ⟨contentData⟩⟩ := t
  simp only [String.data] at h1 h2
  have hshape : serializeTurnChars ⟨⟨roleData⟩, ⟨contentData⟩⟩ ++ rest =
      '{' :: '"' :: 'r' :: 'o' :: 'l' :: 'e' :: '"' :: ':' :: ' ' :: '"' ::
        (escList roleData ++ '"' ::
          (',' :: ' ' :: '"' :: 'c' :: 'o' :: 'n' :: 't' :: 'e' :: 'n' :: 't' ::
           '"' :: ':' :: ' ' :: '"' ::
            (escList contentData ++ '"' :: '}' :: rest))) := by
    simp [serializeTurnChars, List.append_assoc]
  rw [parseTurn, hshape]
  simp only [expectChars, expectChar]
  norm_num
  rw [parseStringBody_escList roleData fuel _ h1]
  simp only [expectChars, expectChar]
  norm_num
  rw [parseStringBody_escList contentData fuel _ h2]
  simp

/-- The turn-sequence parser consumes exactly a serialized nonempty log
body, stopping at the closing bracket. -/
theorem parseTurns_turnsChars :
    ∀ (log : List Turn) (fuel sfuel : Nat), log ≠ [] → log.length ≤ fuel →
      turnsFuel sfuel log →
      parseTurns fuel sfuel (turnsChars log ++ [']']) = some (log, [']']) := by
  intro log
  induction log with
  | nil => intro fuel sfuel h; exact absurd rfl h
  | cons t ts ih =>
    intro fuel sfuel _ hlen hsf
    cases fuel with
    | zero => exact absurd hlen (by simp)
    | succ f =>
      have hts := hsf t (by simp)
      cases ts with
      | nil =>
        simp only [turnsChars, parseTurns]
        rw [parseTurn_serialize t sfuel [']'] hts.1 hts.2]
      | cons t2 ts2 =>
        have hshape : turnsChars (t :: t2 :: ts2) ++ [']'] =
            serializeTurnChars t ++ (',' :: ' ' :: (turnsChars (t2 :: ts2) ++ [']'])) := by
          simp [turnsChars, List.append_assoc]
        simp only [parseTurns, hshape]
        rw [parseTurn_serialize t sfuel _ hts.1 hts.2]
        have hrec := ih f sfuel (by simp)
          (by simp only [List.length_cons] at hlen ⊢; omega)
          (fun u hu => hsf u (List.mem_cons_of_mem t hu))
        simp [hrec]

/-- Every character's escape is at least one character long. -/
theorem jsonEscapeChar_length_pos (c : Char) : 1 ≤ (jsonEscapeChar c).length := by
  rw [jsonEscapeChar]
  split
  · simp
  split
  · simp
  split
  · simp
  split
  · simp
  split
  · simp
  split
  · simp
  split
  · simp
  split
  · simp
  split
  · simp [uEscape]
  · simp [uEscape]

/-- The serialized body of a string is at least as long as the string. -/
theorem escList_length (l : List Char) : l.length ≤ (escList l).length := by
  induction l with
  | nil => simp [escList]
  | cons c cs ih =>
    have := jsonEscapeChar_length_pos c
    simp only [escList, List.length_append, List.length_cons]
    omega

/-- A serialized turn is longer than each of its two fields. -/
theorem serializeTurnChars_length (t : Turn) :
    t.role.data.length < (serializeTurnChars t).length ∧
    t.content.data.length < (serializeTurnChars t).length := by
  have h1 := escList_length t.role.data
  have h2 := escList_length t.content.data
  simp only [serializeTurnChars, List.length_cons, List.length_append]
  omega

/-- A serialized log body is at least as long as the number of its turns,
and longer than each field of each of its turns. -/
theorem turnsChars_length :
    ∀ (log : List Turn), log.length ≤ (turnsChars log).length ∧
      ∀ t ∈ log, t.role.data.length < (turnsChars log).length ∧
        t.content.data.length < (turnsChars log).length := by
  intro log
  induction log with
  | nil => simp [turnsChars]
  | cons t ts ih =>
    have ht := serializeTurnChars_length t
    cases ts with
    | nil =>
      simp only [turnsChars, List.length_cons, List.length_nil, List.mem_singleton]
      constructor
      · omega
      · intro u hu; subst hu; omega
    | cons t2 ts2 =>
      obtain ⟨ihlen, ihmem⟩ := ih
      simp only [turnsChars, List.length_append, List.length_cons] at ihlen ihmem ⊢
      constructor
      · omega
      · intro u hu
        rcases List.mem_cons.mp hu with hu | hu
        · subst hu; omega
        · have := ihmem u hu; omega

/-- `json.loads` inverts `json.dumps` on every message log (the claim C7
codec round-trip, at character-list level). -/
theorem deserializeLogChars_serializeLogChars (log : List Turn) :
    deserializeLogChars (serializeLogChars log) = some log := by
  cases log with
  | nil => rfl
  | cons t ts =>
    obtain ⟨hlen, hmem⟩ := turnsChars_length (t :: ts)
    have hne : turnsChars (t :: ts) ++ [']'] ≠ [']'] := by
      intro h
      have := congrArg List.length h
      have h1 := (serializeTurnChars_length t).1
      simp only [List.length_append, List.length_cons, List.length_nil] at this
      cases ts with
      | nil => simp only [turnsChars] at this; omega
      | cons t2 ts2 =>
        simp only [turnsChars, List.length_append, List.length_cons] at this
        omega
    have hfuel : (serializeLogChars (t :: ts)).length =
        (turnsChars (t :: ts)).length + 2 := by
      simp [serializeLogChars]
    have hp := parseTurns_turnsChars (t :: ts) (serializeLogChars (t :: ts)).length
      (serializeLogChars (t :: ts)).length (by simp) (by rw [hfuel]; omega)
      (fun u hu => by
        have := hmem u hu
        rw [hfuel]
        omega)
    rw [serializeLogChars, deserializeLogChars]
    simp only [hne, if_false, if_pos rfl]
    rw [show ('[' :: (turnsChars (t :: ts) ++ [']'])).length
        = (serializeLogChars (t :: ts)).length from rfl]
    rw [hp]
    simp

/-- `json.loads` inverts `json.dumps` on every message log. -/
theorem deserialize_serialize (log : List Turn) :
    deserializeLog (serializeLog log) = some log :=
  deserializeLogChars_serializeLogChars log

/-! ### Helper lemmas about the Python split / truthiness helpers -/

theorem splitSpaceChars_no_space (w : List Char) (h : ∀ ch ∈ w, ¬ ch = ' ') :
    splitSpaceChars w = [w] := by
  induction w with
  | nil => rfl
  | cons c cs ih =>
    have hc : ¬ c = ' ' := h c (by simp)
    have ih2 := ih (fun ch hch => h ch (List.mem_cons_of_mem c hch))
    simp [splitSpaceChars, hc, ih2]

theorem splitSpaceChars_word_append (w rest : List Char)
    (h : ∀ ch ∈ w, ¬ ch = ' ') :
    splitSpaceChars (w ++ ' ' :: rest) = w :: splitSpaceChars rest := by
  induction w with
  | nil => simp [splitSpaceChars]
  | cons c cs ih =>
    have hc : ¬ c = ' ' := h c (by simp)
    have ih2 := ih (fun ch hch => h ch (List.mem_cons_of_mem c hch))
    simp [splitSpaceChars, hc, ih2]

theorem splitSpaceChars_joinWords :
    ∀ (lws : List (List Char)), (∀ w ∈ lws, ∀ ch ∈ w, ¬ ch = ' ') → lws ≠ [] →
      splitSpaceChars (joinWords lws) = lws := by
  intro lws
  induction lws with
  | nil => intro _ h; exact absurd rfl h
  | cons w ws ih =>
    intro hw _
    cases ws with
    | nil => exact splitSpaceChars_no_space w (hw w (by simp))
    | cons w2 ws2 =>
      have hshape : joinWords (w :: w2 :: ws2) = w ++ ' ' :: joinWords (w2 :: ws2) := rfl
      rw [hshape, splitSpaceChars_word_append w _ (hw w (by simp)),
        ih (fun u hu ch hch => hw u (List.mem_cons_of_mem w hu) ch hch) (by simp)]

theorem pyFalsy_iff (x : Option String) :
    pyFalsy x = true ↔ (x = none ∨ x = some "") := by
  cases x with
  | none => simp [pyFalsy]
  | some s => simp [pyFalsy]

/-! ### Claim C7 -/

/-- C7: serialization of a Message Log to its persisted textual JSON form
round-trips (`deserialize(serialize(log)) == log` for every log, order
preserved since the very log comes back), and the empty log serializes to
`"[]"`. -/
theorem C7_serialize_roundtrip :
    (∀ log : List Turn, deserializeLog (serializeLog log) = some log) ∧
      serializeLog [] = "[]" :=
  ⟨deserialize_serialize, rfl⟩

/-! ### Claim C3 -/

/-- C3 counterexample: `create_chat_title` does not split on whitespace into
words — it splits on every single space character, so `"a  b  c"` (double
spaces, 3 words) yields `"a  b..."` where the claimed algorithm yields
`"a b c"`. -/
theorem C3_title_counterexample :
    create_chat_title "a  b  c" ≠ specDeriveTitle "a  b  c" ∧
      create_chat_title "a  b  c" = "a  b..." ∧
      specDeriveTitle "a  b  c" = "a b c" := by
  refine ⟨by decide, by decide, by decide⟩

/-- C3 amended: `create_chat_title` splits on the single space character
(empty pieces from adjacent spaces count as words); on source texts that are
nonempty space-free words separated by single spaces this is exactly the
claimed algorithm: take at most the first 3 words, join with single spaces,
append `"..."` iff more than 3 words existed. -/
theorem C3_title_amended (ws : List String) (hne : ws ≠ [])
    (hwords : ∀ w ∈ ws, w.data ≠ [] ∧ ∀ ch ∈ w.data, ¬ ch = ' ') :
    create_chat_title ⟨joinWords (ws.map String.data)⟩ =
      (⟨joinWords ((ws.map String.data).take 3)⟩ : String) ++
        (if ws.length > 3 then "..." else "") := by
  have hsplit := splitSpaceChars_joinWords (ws.map String.data)
    (fun w hw ch hch => by
      obtain ⟨v, hv, rfl⟩ := List.mem_map.mp hw
      exact (hwords v hv).2 ch hch)
    (by simpa using hne)
  simp only [create_chat_title]
  simp only [hsplit, List.length_map]

/-- Witness for the amended C3 on `["one", "two", "three", "four"]`. -/
theorem C3_title_amended_witness :
    (["one", "two", "three", "four"] : List String) ≠ [] ∧
      (∀ w ∈ (["one", "two", "three", "four"] : List String),
        w.data ≠ [] ∧ ∀ ch ∈ w.data, ¬ ch = ' ') ∧
      create_chat_title ⟨joinWords ((["one", "two", "three", "four"] : List String).map String.data)⟩ =
        (⟨joinWords (((["one", "two", "three", "four"] : List String).map String.data).take 3)⟩ : String) ++
          (if (["one", "two", "three", "four"] : List String).length > 3 then "..." else "") :=
  ⟨by decide, by decide, C3_title_amended ["one", "two", "three", "four"] (by decide) (by decide)⟩

/-! ### Claim C2 -/

theorem lcHistory_render_map (log : List Turn) :
    (lcHistory log).map (fun m => pyCapitalize m.type ++ ": " ++ m.content) =
      log.filterMap (fun t =>
        if t.role = "user" then some ("Human: " ++ t.content)
        else if t.role = "assistant" then some ("Ai: " ++ t.content)
        else none) := by
  induction log with
  | nil => rfl
  | cons t ts ih =>
    by_cases h1 : t.role = "user"
    · simp only [lcHistory, if_pos h1, List.map_cons, ih, List.filterMap_cons]
      rw [show pyCapitalize "human" ++ ": " = "Human: " from by decide]
    by_cases h2 : t.role = "assistant"
    · simp only [lcHistory, if_neg h1, if_pos h2, List.map_cons, ih,
        List.filterMap_cons]
      rw [show pyCapitalize "ai" ++ ": " = "Ai: " from by decide]
    · simp [lcHistory, h1, h2, ih, List.filterMap_cons]

/-- C2 counterexample: the Context Assembler does not label turns
`User:` / `Assistant:` — the langchain message types are `human` / `ai`, so
`msg.type.capitalize()` produces `Human:` / `Ai:`; on the claimed example the
rendered context differs from the claimed string. -/
theorem C2_render_counterexample :
    renderHistory [⟨"user", "Hi"⟩, ⟨"assistant", "Hello!"⟩,
        ⟨"user", "What\x27s the weather?"⟩] ≠
      "User: Hi\nAssistant: Hello!\nUser: What\x27s the weather?" := by decide

/-- C2 amended: each turn renders as `"{TypeLabel}: {content}"` joined by
newline, where TypeLabel is the capitalized langchain message type — `Human`
for user turns, `Ai` for assistant turns (other roles are skipped); the
claimed example renders as
`"Human: Hi\nAi: Hello!\nHuman: What's the weather?"`. -/
theorem C2_render_amended :
    (∀ log : List Turn, renderHistory log = specRenderHistory log) ∧
      renderHistory [⟨"user", "Hi"⟩, ⟨"assistant", "Hello!"⟩,
          ⟨"user", "What\x27s the weather?"⟩] =
        "Human: Hi\nAi: Hello!\nHuman: What\x27s the weather?" := by
  constructor
  · intro log
    rw [renderHistory, specRenderHistory, lcHistory_render_map]
  · decide

/-! ### Claim C1 -/

/-- C1: when the Language Model Client fails on the assembled prompt, the
chat operation fails with `ModelInvocationError` and the returned store is
the very store passed in — the user turn appended in memory is never
persisted — for every account, every resolvable (existing or new) session,
and every user text. -/
theorem C1_model_failure (llm : String → Option String) (db : DB)
    (username : String) (chat_id : Option Nat) (question : String)
    (user : UserRec) (sess : Option ChatRecord) (conv : List Turn)
    (huser : get_user db username = some user)
    (hres : resolveSession db user.id chat_id = .ok (sess, conv))
    (hllm : llm (assemblePrompt (conv ++ [⟨"user", question⟩]) question) = none) :
    chat llm db username chat_id question = (db, .error .ModelInvocationError) := by
  simp [chat, huser, hres, hllm]

/-- Witness for C1: failing client on a fresh session leaves `store0`
untouched. -/
theorem C1_model_failure_witness :
    get_user store0 "alice" = some ⟨1, "alice"⟩ ∧
      resolveSession store0 1 none = .ok (none, []) ∧
      (fun _ : String => (none : Option String))
        (assemblePrompt ([] ++ [⟨"user", "Hi"⟩]) "Hi") = none ∧
      chat (fun _ => none) store0 "alice" none "Hi" =
        (store0, .error .ModelInvocationError) :=
  ⟨rfl, rfl, rfl, C1_model_failure _ _ _ _ _ _ _ _ rfl rfl rfl⟩

/-! ### Claim C4 -/

/-- C4 counterexample: a supplied session id of `0` does not exist in the
store, yet the call does not fail with `SessionNotFoundError` — Python's
`if chat_id:` treats `0` as absent, so a brand-new session is created. -/
theorem C4_zero_id_counterexample :
    (chat (fun _ => some "Hello!") store0 "alice" (some 0) "Hi").2 =
        .ok ⟨1, "Hi", serializeLog [⟨"user", "Hi"⟩, ⟨"assistant", "Hello!"⟩]⟩ ∧
      (chat (fun _ => some "Hello!") store0 "alice" (some 0) "Hi").2 ≠
        .error .SessionNotFoundError :=
  ⟨rfl, fun h => nomatch h⟩

/-- C4 amended: for every *nonzero* supplied session id, the session is
looked up by the `(sessionId, ownerAccountId)` pair; a nonexistent id and an
id owned by another account fail identically with `SessionNotFoundError` and
the store is unchanged (no session is created under the supplied id); a
supplied id of `0` is instead treated as absent and a fresh session is
created with a store-assigned id. -/
theorem C4_session_lookup_amended (llm : String → Option String) (db : DB)
    (username question : String) (cid : Nat) (user : UserRec)
    (huser : get_user db username = some user)
    (hcid : cid ≠ 0)
    (hfind : db.chats.find? (fun c => c.id == cid && c.user_id == user.id) = none) :
    chat llm db username (some cid) question = (db, .error .SessionNotFoundError) := by
  simp [chat, huser, resolveSession, hcid, hfind]

/-- Witness for the amended C4: alice supplying bob's session id 7 gets
`SessionNotFoundError` and the store is unchanged. -/
theorem C4_session_lookup_amended_witness :
    get_user storeCross "alice" = some ⟨1, "alice"⟩ ∧
      (7 : Nat) ≠ 0 ∧
      storeCross.chats.find? (fun c => c.id == 7 && c.user_id == (⟨1, "alice"⟩ : UserRec).id) = none ∧
      chat (fun _ => some "x") storeCross "alice" (some 7) "Q" =
        (storeCross, .error .SessionNotFoundError) :=
  ⟨rfl, by decide, rfl,
    C4_session_lookup_amended _ _ _ _ _ _ rfl (by decide) rfl⟩

/-! ### Claim C5 -/

/-- C5 counterexample: a second single-session delete of the same id is an
error (`404 Chat not found`), not a zero-affected-records report. -/
theorem C5_delete_twice_counterexample :
    (delete_chat storeOne 1).2 = .ok () ∧
      (delete_chat (delete_chat storeOne 1).1 1).2 = .error .SessionNotFoundError :=
  ⟨rfl, rfl⟩

/-- C5 amended: deleting twice is benign only for the delete-all-for-owner
operation, whose second run reports zero affected records; the
single-session delete of an already-deleted id instead fails with
`SessionNotFoundError`. -/
theorem C5_delete_twice_amended (db : DB) (username : String) (user : UserRec)
    (cid : Nat)
    (huser : get_user db username = some user)
    (hnodup : (db.chats.map ChatRecord.id).Nodup) :
    (∀ db2 n, delete_all_chats db username = (db2, .ok n) →
        delete_all_chats db2 username = (db2, .ok 0)) ∧
      (∀ db2, delete_chat db cid = (db2, .ok ()) →
        (delete_chat db2 cid).2 = .error .SessionNotFoundError) := by
  constructor
  · intro db2 n h
    have hdb2 : db2 = { db with chats := db.chats.filter fun c => ! (c.user_id == user.id) } := by
      have := congrArg Prod.fst h
      simpa [delete_all_chats, huser] using this.symm
    subst hdb2
    have hmem : ∀ x ∈ db.chats.filter (fun c => ! (c.user_id == user.id)),
        ¬ ((x.user_id == user.id) = true) := by
      intro x hx
      have := (List.mem_filter.mp hx).2
      simpa using this
    have huser2 : get_user
        { db with chats := db.chats.filter (fun c => ! (c.user_id == user.id)) }
        username = some user := huser
    have hself : (db.chats.filter fun c => ! (c.user_id == user.id)).filter
        (fun c => ! (c.user_id == user.id)) =
          db.chats.filter fun c => ! (c.user_id == user.id) :=
      List.filter_eq_self.mpr (fun a ha => (List.mem_filter.mp ha).2)
    have hzero : ((db.chats.filter fun c => ! (c.user_id == user.id)).filter
        (fun c => c.user_id == user.id)).length = 0 := by
      rw [List.length_eq_zero]
      exact List.filter_eq_nil_iff.mpr hmem
    simp only [delete_all_chats, huser2, hself, hzero]
  · intro db2 h
    cases hfind : db.chats.find? (fun c => c.id == cid) with
    | none =>
      rw [delete_chat, hfind] at h
      exact absurd (congrArg Prod.snd h) (fun hh => nomatch hh)
    | some c =>
      have hdb2 : db2 = { db with chats := db.chats.eraseP fun x => x.id == cid } := by
        have := congrArg Prod.fst h
        simpa [delete_chat, hfind] using this.symm
      subst hdb2
      have hcmem : c ∈ db.chats := List.mem_of_find?_eq_some hfind
      have hcid2 := List.find?_some hfind
      obtain ⟨a, l1, l2, hnl1, hpa, hsplit, herase⟩ :=
        List.exists_of_eraseP (p := fun x => x.id == cid) hcmem hcid2
      have hfind2 : ((db.chats.eraseP fun x => x.id == cid).find?
          (fun x => x.id == cid)) = none := by
        rw [herase, List.find?_eq_none]
        intro x hx hpx
        rcases List.mem_append.mp hx with hx | hx
        · exact hnl1 x hx hpx
        · have hmapnodup : ((l1 ++ a :: l2).map ChatRecord.id).Nodup := by
            rw [← hsplit]; exact hnodup
          have hnotin : a.id ∉ l2.map ChatRecord.id := by
            have h2 : ((a :: l2).map ChatRecord.id).Nodup := by
              have := hmapnodup
              rw [List.map_append] at this
              exact this.of_append_right
            exact (List.nodup_cons.mp h2).1
          apply hnotin
          have hax : a.id = x.id := by
            have h1 : a.id = cid := by simpa using hpa
            have h2 : x.id = cid := by simpa using hpx
            omega
          rw [hax]
          exact List.mem_map_of_mem _ hx
      simp [delete_chat, hfind2]

/-- Witness for the amended C5 on a one-chat store. -/
theorem C5_delete_twice_amended_witness :
    get_user storeOne "alice" = some ⟨1, "alice"⟩ ∧
      ((storeOne.chats.map ChatRecord.id).Nodup) ∧
      ((∀ db2 n, delete_all_chats storeOne "alice" = (db2, .ok n) →
          delete_all_chats db2 "alice" = (db2, .ok 0)) ∧
        (∀ db2, delete_chat storeOne 1 = (db2, .ok ()) →
          (delete_chat db2 1).2 = .error .SessionNotFoundError)) :=
  ⟨rfl, by decide, C5_delete_twice_amended _ _ _ 1 rfl (by decide)⟩

/-! ### Claim C6 -/

/-- C6 counterexample: a stored empty-string title-source counts as set per
the claim, yet a later advance overwrites it — Python `if not
db_chat.first_question:` treats `""` as unset. -/
theorem C6_title_counterexample :
    storeEmptyTitle.chats.map ChatRecord.first_question = [some ""] ∧
      ((chat (fun _ => some "ok") storeEmptyTitle "alice" (some 1) "Hello").1.chats.map
        ChatRecord.first_question) = [some "Hello"] :=
  ⟨rfl, rfl⟩

/-- C6 amended: on a successful advance of an existing session, the stored
title-source is overwritten with the current user text iff it was `null` or
the empty string (Python falsiness); any other already-set value is never
overwritten. -/
theorem C6_title_amended (llm : String → Option String) (db : DB)
    (username question reply : String) (cid : Nat) (user : UserRec)
    (c : ChatRecord) (conv : List Turn)
    (huser : get_user db username = some user)
    (hcid : cid ≠ 0)
    (hfind : db.chats.find? (fun x => x.id == cid && x.user_id == user.id) = some c)
    (hconv : deserializeLog c.conversation_history = some conv)
    (hllm : llm (assemblePrompt (conv ++ [⟨"user", question⟩]) question) = some reply) :
    ∃ c2 : ChatRecord,
      (chat llm db username (some cid) question).1.chats = updateRow db.chats c.id c2 ∧
      c2.first_question =
        (if c.first_question = none ∨ c.first_question = some ""
         then some question else c.first_question) ∧
      c2.id = c.id ∧
      c2.conversation_history =
        serializeLog (conv ++ [⟨"user", question⟩, ⟨"assistant", reply⟩]) := by
  have hstep : resolveSession db user.id (some cid) = .ok (some c, conv) := by
    simp [resolveSession, hcid, hfind, hconv]
  simp only [chat, huser, hstep, hllm]
  refine ⟨_, rfl, ?_, rfl, by simp⟩
  by_cases hf : c.first_question = none ∨ c.first_question = some ""
  · rw [if_pos (pyFalsy_iff c.first_question |>.mpr hf), if_pos hf]
  · rw [if_neg (fun hh => hf ((pyFalsy_iff c.first_question).mp hh)), if_neg hf]

/-- Witness for the amended C6: a session whose title-source is `"Hi"`
keeps it across a later advance. -/
theorem C6_title_amended_witness :
    get_user storeOne "alice" = some ⟨1, "alice"⟩ ∧
      (1 : Nat) ≠ 0 ∧
      storeOne.chats.find? (fun x => x.id == 1 && x.user_id == (⟨1, "alice"⟩ : UserRec).id) =
        some ⟨1, 1, some "Hi", serializeLog [⟨"user", "Hi"⟩, ⟨"assistant", "Hello!"⟩]⟩ ∧
      deserializeLog (⟨1, 1, some "Hi",
          serializeLog [⟨"user", "Hi"⟩, ⟨"assistant", "Hello!"⟩]⟩ : ChatRecord).conversation_history =
        some [⟨"user", "Hi"⟩, ⟨"assistant", "Hello!"⟩] ∧
      (fun _ : String => (some "ok" : Option String))
        (assemblePrompt ([⟨"user", "Hi"⟩, ⟨"assistant", "Hello!"⟩] ++
          [⟨"user", "And now?"⟩]) "And now?") = some "ok" ∧
      ∃ c2 : ChatRecord,
        (chat (fun _ => some "ok") storeOne "alice" (some 1) "And now?").1.chats =
          updateRow storeOne.chats
            (⟨1, 1, some "Hi", serializeLog [⟨"user", "Hi"⟩, ⟨"assistant", "Hello!"⟩]⟩ : ChatRecord).id c2 ∧
        c2.first_question =
          (if (⟨1, 1, some "Hi", serializeLog [⟨"user", "Hi"⟩, ⟨"assistant", "Hello!"⟩]⟩ : ChatRecord).first_question = none ∨
              (⟨1, 1, some "Hi", serializeLog [⟨"user", "Hi"⟩, ⟨"assistant", "Hello!"⟩]⟩ : ChatRecord).first_question = some ""
           then some "And now?"
           else (⟨1, 1, some "Hi", serializeLog [⟨"user", "Hi"⟩, ⟨"assistant", "Hello!"⟩]⟩ : ChatRecord).first_question) ∧
        c2.id = (⟨1, 1, some "Hi", serializeLog [⟨"user", "Hi"⟩, ⟨"assistant", "Hello!"⟩]⟩ : ChatRecord).id ∧
        c2.conversation_history =
          serializeLog ([⟨"user", "Hi"⟩, ⟨"assistant", "Hello!"⟩] ++
            [⟨"user", "And now?"⟩, ⟨"assistant", "ok"⟩]) :=
  ⟨rfl, by decide, by rfl, by rfl, rfl,
    C6_title_amended _ _ _ _ _ _ _ _ _ rfl (by decide) (by rfl) (by rfl) rfl⟩

/-! ### Claim C8 -/

/-- C8: an advance with no session id, user text `"Hi"` and model reply
`"Hello!"` persists a new session owned by the caller whose stored log is
exactly `[{user,"Hi"},{assistant,"Hello!"}]` in that order, with returned
title `"Hi"`. -/
theorem C8_new_session :
    chat (fun _ => some "Hello!") store0 "alice" none "Hi" =
      ({ users := [⟨1, "alice"⟩],
         chats := [⟨1, 1, some "Hi",
           serializeLog [⟨"user", "Hi"⟩, ⟨"assistant", "Hello!"⟩]⟩],
         nextChatId := 2 },
       .ok ⟨1, "Hi", serializeLog [⟨"user", "Hi"⟩, ⟨"assistant", "Hello!"⟩]⟩) ∧
      deserializeLog (serializeLog [⟨"user", "Hi"⟩, ⟨"assistant", "Hello!"⟩]) =
        some [⟨"user", "Hi"⟩, ⟨"assistant", "Hello!"⟩] :=
  ⟨rfl, deserialize_serialize _⟩

/-! ### Claim C9 -/

theorem mem_updateRow {l : List ChatRecord} {rid : Nat} {c2 x : ChatRecord}
    (hx : x ∈ updateRow l rid c2) : x = c2 ∨ x ∈ l := by
  obtain ⟨y, hy, hxy⟩ := List.mem_map.mp hx
  by_cases h : y.id = rid
  · left; rw [← hxy, if_pos h]
  · right; rw [← hxy, if_neg h]; exact hy

/-- C9: the chat operation preserves the invariant that every persisted
session has a parseable non-empty log, and every record it leaves in the
store either was already there or carries the previous log extended by
exactly the new user turn followed by the assistant turn (inserts carry
their first exchange, updates only append). -/
theorem C9_nonempty_invariant (llm : String → Option String) (db : DB)
    (username question : String) (cid : Option Nat) (db2 : DB)
    (r : Except ApiError ChatResponse)
    (h : chat llm db username cid question = (db2, r))
    (hinv : nonEmptyLogs db) :
    nonEmptyLogs db2 ∧
      ∀ c2 ∈ db2.chats, c2 ∈ db.chats ∨
        ∃ prev reply, deserializeLog c2.conversation_history =
          some (prev ++ [⟨"user", question⟩, ⟨"assistant", reply⟩]) := by
  have hdb2 : db2 = (chat llm db username cid question).1 := by rw [h]
  subst hdb2
  cases huser : get_user db username with
  | none =>
    simp only [chat, huser]
    exact ⟨hinv, fun c2 hc2 => Or.inl hc2⟩
  | some user =>
    cases hres : resolveSession db user.id cid with
    | error e =>
      simp only [chat, huser, hres]
      exact ⟨hinv, fun c2 hc2 => Or.inl hc2⟩
    | ok pair =>
      obtain ⟨sess, conv⟩ := pair
      cases hllm : llm (assemblePrompt (conv ++ [⟨"user", question⟩]) question) with
      | none =>
        simp only [chat, huser, hres, hllm]
        exact ⟨hinv, fun c2 hc2 => Or.inl hc2⟩
      | some reply =>
        cases sess with
        | some c =>
          simp only [chat, huser, hres, hllm]
          have hnew : deserializeLog (serializeLog
              ((conv ++ [⟨"user", question⟩]) ++ [⟨"assistant", reply⟩])) =
              some (conv ++ [⟨"user", question⟩, ⟨"assistant", reply⟩]) := by
            rw [deserialize_serialize]
            simp
          constructor
          · intro x hx
            rcases mem_updateRow hx with rfl | hx2
            · exact ⟨conv ++ [⟨"user", question⟩, ⟨"assistant", reply⟩], hnew, by simp⟩
            · exact hinv x hx2
          · intro x hx
            rcases mem_updateRow hx with rfl | hx2
            · exact Or.inr ⟨conv, reply, hnew⟩
            · exact Or.inl hx2
        | none =>
          simp only [chat, huser, hres, hllm]
          have hnew : deserializeLog (serializeLog
              ((conv ++ [⟨"user", question⟩]) ++ [⟨"assistant", reply⟩])) =
              some (conv ++ [⟨"user", question⟩, ⟨"assistant", reply⟩]) := by
            rw [deserialize_serialize]
            simp
          constructor
          · intro x hx
            rcases List.mem_append.mp hx with hx2 | hx2
            · exact hinv x hx2
            · rcases List.mem_singleton.mp hx2 with rfl
              exact ⟨conv ++ [⟨"user", question⟩, ⟨"assistant", reply⟩], hnew, by simp⟩
          · intro x hx
            rcases List.mem_append.mp hx with hx2 | hx2
            · exact Or.inl hx2
            · rcases List.mem_singleton.mp hx2 with rfl
              exact Or.inr ⟨conv, reply, hnew⟩

/-- Witness for C9 on a fresh store. -/
theorem C9_nonempty_invariant_witness :
    (chat (fun _ => some "Hello!") store0 "alice" none "Hi" =
      (storeOne, .ok ⟨1, "Hi", serializeLog [⟨"user", "Hi"⟩, ⟨"assistant", "Hello!"⟩]⟩)) ∧
      nonEmptyLogs store0 ∧
      (nonEmptyLogs storeOne ∧
        ∀ c2 ∈ storeOne.chats,
          c2 ∈ store0.chats ∨
            ∃ prev reply, deserializeLog c2.conversation_history =
              some (prev ++ [⟨"user", "Hi"⟩, ⟨"assistant", reply⟩])) :=
  ⟨rfl, fun c hc => absurd hc (by simp [store0]),
    C9_nonempty_invariant (fun _ => some "Hello!") store0 "alice" "Hi" none storeOne
      (.ok ⟨1, "Hi", serializeLog [⟨"user", "Hi"⟩, ⟨"assistant", "Hello!"⟩]⟩) rfl
      (fun c hc => absurd hc (by simp [store0]))⟩

/-! ### Claim C10 -/

/-- C10: the single-session read and delete look the session up by its id
alone — there is no owner-account parameter and no ownership check, so for
any record in the store (whatever its `user_id`) any caller addressing its
id receives its full log and title, or deletes it. -/
theorem C10_id_only_access (db : DB) (cid : Nat) (c : ChatRecord)
    (hfind : db.chats.find? (fun x => x.id == cid) = some c) :
    get_chat db cid =
        .ok ⟨c.id, create_chat_title (pyOr c.first_question "Untitled Chat"),
             c.conversation_history⟩ ∧
      delete_chat db cid =
        ({ db with chats := db.chats.eraseP (fun x => x.id == cid) }, .ok ()) := by
  constructor
  · simp [get_chat, hfind]
  · simp [delete_chat, hfind]

/-- Witness for C10: bob's session (id 7, owner account 2) is readable and
deletable with no account in sight. -/
theorem C10_id_only_access_witness :
    storeCross.chats.find? (fun x => x.id == 7) =
        some ⟨7, 2, some "Hi", "[]"⟩ ∧
      (get_chat storeCross 7 =
          .ok ⟨(⟨7, 2, some "Hi", "[]"⟩ : ChatRecord).id,
               create_chat_title
                 (pyOr (⟨7, 2, some "Hi", "[]"⟩ : ChatRecord).first_question "Untitled Chat"),
               (⟨7, 2, some "Hi", "[]"⟩ : ChatRecord).conversation_history⟩ ∧
        delete_chat storeCross 7 =
          ({ storeCross with chats := storeCross.chats.eraseP (fun x => x.id == 7) }, .ok ())) :=
  ⟨rfl, C10_id_only_access _ _ _ rfl⟩

end ChatClone
